import Mathlib

/-!
Shallow embedding of `src/script.js` (class `MusicVisualizer`), modelling the
visualization engine: the four draw routines (`drawBars`, `drawCircle`,
`drawWave`, `drawParticles`), the particle update, the engine state and the
methods `changeMode`, `clearCanvas`, `stop` and `visualize`.

Modelling conventions:
- JS numbers are modelled as exact rationals (`ℚ`); the float literals
  `0.8`, `2.5`, `0.1`, ... become `8 / 10`, `5 / 2`, `1 / 10`, ....
- Host math functions (`Math.cos`, `Math.sin`, `Math.sqrt`) and the float
  constant `Math.PI` are injected as parameters (`cosF`, `sinF`, `sqrtF`,
  `piV`); theorems assume only the properties they need of them.
- Canvas painting is recorded as a list of `DrawOp` values, one per
  `fillRect` / `stroke` / `fill` call, carrying the current style.
- A JS exception escaping a call is modelled with an `Option JsError`
  component of the result (`none` = normal completion).
-/

namespace MusicVisualizer

/-- Solid colors appearing in the drawing calls of `script.js`:
`rgba(...)` and `hsla(...)` CSS strings. -/
inductive Color where
  | rgba (r g b a : ℚ)
  | hsla (h s l a : ℚ)
deriving DecidableEq

/-- Fill/stroke styles assigned to the canvas context in `script.js`:
a solid color, a linear gradient with its color stops, or a radial
gradient with its color stops. -/
inductive Style where
  | solid (c : Color)
  | linGrad (x0 y0 x1 y1 : ℚ) (stops : List (ℚ × Color))
  | radGrad (x0 y0 r0 x1 y1 r1 : ℚ) (stops : List (ℚ × Color))
deriving DecidableEq

/-- One recorded canvas drawing primitive. `fillRect` records
`ctx.fillRect(x, y, w, h)` under the current `fillStyle`; `strokeLine`
records a `beginPath`/`moveTo`/`lineTo`/`stroke` sequence; `strokePath`
records a stroked polyline; `strokeArc`/`fillArc` record stroked/filled
`ctx.arc` calls. -/
inductive DrawOp where
  | fillRect (style : Style) (x y w h : ℚ)
  | strokeLine (style : Style) (lineWidth x1 y1 x2 y2 : ℚ)
  | strokePath (style : Style) (lineWidth : ℚ) (points : List (ℚ × ℚ))
  | strokeArc (style : Style) (lineWidth cx cy r a0 a1 : ℚ)
  | fillArc (style : Style) (cx cy r a0 a1 : ℚ)
deriving DecidableEq

/-- The x coordinate of a recorded operation (rectangle corner, line start,
arc center); 0 for polylines. -/
def opX : DrawOp → ℚ
  | .fillRect _ x _ _ _ => x
  | .strokeLine _ _ x1 _ _ _ => x1
  | .strokePath _ _ _ => 0
  | .strokeArc _ _ cx _ _ _ _ => cx
  | .fillArc _ cx _ _ _ _ => cx

/-- The y coordinate of a recorded operation. -/
def opY : DrawOp → ℚ
  | .fillRect _ _ y _ _ => y
  | .strokeLine _ _ _ y1 _ _ => y1
  | .strokePath _ _ _ => 0
  | .strokeArc _ _ _ cy _ _ _ => cy
  | .fillArc _ _ cy _ _ _ => cy

/-- The height of a recorded rectangle operation; 0 for others. -/
def opH : DrawOp → ℚ
  | .fillRect _ _ _ _ h => h
  | _ => 0

/-- Recognizes the gradient-filled bar rectangles of `drawBars` (the only
fills that use a linear gradient). -/
def isBarFill : DrawOp → Bool
  | .fillRect (.linGrad _ _ _ _ _) _ _ _ _ => true
  | _ => false

/-- Recognizes the solid `hsla` cap-strip rectangles of `drawBars` (the
fade rectangle uses a solid `rgba` style instead). -/
def isCapFill : DrawOp → Bool
  | .fillRect (.solid (.hsla _ _ _ _)) _ _ _ _ => true
  | _ => false

/-- Loop body of `MusicVisualizer.drawBars` (`script.js` lines 186-201):
one gradient bar fill and one cap-strip fill per bin, advancing the
running offset by `barWidth + 1`. `N` is `this.bufferLength`, `i` the
running bin index, `x` the running offset. -/
def drawBarsLoop (N : ℕ) (height barWidth : ℚ) :
    List ℚ → ℕ → ℚ → List DrawOp
  | [], _, _ => []
  | d :: rest, i, x =>
      let barHeight := d / 255 * height * (8 / 10)
      let hue := (i : ℚ) / (N : ℚ) * 360
      DrawOp.fillRect
          (Style.linGrad 0 (height - barHeight) 0 height
            [(0, Color.hsla hue 100 50 (8 / 10)), (1, Color.hsla hue 100 70 (6 / 10))])
          x (height - barHeight) barWidth barHeight ::
        DrawOp.fillRect (Style.solid (Color.hsla hue 100 80 (3 / 10)))
          x (height - barHeight - 10) barWidth 5 ::
        drawBarsLoop N height barWidth rest (i + 1) (x + (barWidth + 1))

/-- `MusicVisualizer.drawBars` (`script.js` lines 176-202): fading black
rectangle, then per-bin bars and caps with `barWidth = (width / N) * 2.5`. -/
def drawBars (spectrum : List ℚ) (width height : ℚ) : List DrawOp :=
  let barWidth := width / (spectrum.length : ℚ) * (5 / 2)
  DrawOp.fillRect (Style.solid (Color.rgba 0 0 0 (2 / 10))) 0 0 width height ::
    drawBarsLoop spectrum.length height barWidth spectrum 0 0

/-- Truncating (toward-zero) integer part of a rational, the rounding used
by the JS `%` operator on its quotient. -/
def jsTrunc (q : ℚ) : ℤ := q.num / (q.den : ℤ)

/-- The JS `%` (remainder) operator on numbers: `a - b * trunc(a / b)`. -/
def jsMod (a b : ℚ) : ℚ := a - b * ((jsTrunc (a / b) : ℤ) : ℚ)

/-- Floor of a rational as an integer, the rounding of JS `Math.floor`. -/
def ratFloor (q : ℚ) : ℤ := Int.fdiv q.num (q.den : ℤ)

/-- Loop body of `MusicVisualizer.drawCircle` (`script.js` lines 215-231):
one stroked radial line segment per bin, from the base circle outward by
`barHeight = (spectrum[i] / 255) * 100`. `piV` stands for `Math.PI`,
`cosF`/`sinF` for `Math.cos`/`Math.sin`. -/
def drawCircleLoop (cosF sinF : ℚ → ℚ) (piV : ℚ) (N : ℕ)
    (centerX centerY radius : ℚ) : List ℚ → ℕ → List DrawOp
  | [], _ => []
  | d :: rest, i =>
      let angle := (i : ℚ) / (N : ℚ) * piV * 2
      let barHeight := d / 255 * 100
      let x1 := centerX + cosF angle * radius
      let y1 := centerY + sinF angle * radius
      let x2 := centerX + cosF angle * (radius + barHeight)
      let y2 := centerY + sinF angle * (radius + barHeight)
      let hue := (i : ℚ) / (N : ℚ) * 360
      DrawOp.strokeLine (Style.solid (Color.hsla hue 100 50 (8 / 10))) 2 x1 y1 x2 y2 ::
        drawCircleLoop cosF sinF piV N centerX centerY radius rest (i + 1)

/-- `MusicVisualizer.drawCircle` (`script.js` lines 204-238): fading black
rectangle, per-bin radial segments around `radius = min(width, height) / 4`
centered at the surface midpoint, then the stroked base circle. -/
def drawCircle (spectrum : List ℚ) (width height piV : ℚ)
    (cosF sinF : ℚ → ℚ) : List DrawOp :=
  let centerX := width / 2
  let centerY := height / 2
  let radius := min width height / 4
  DrawOp.fillRect (Style.solid (Color.rgba 0 0 0 (1 / 10))) 0 0 width height ::
    drawCircleLoop cosF sinF piV spectrum.length centerX centerY radius spectrum 0 ++
      [DrawOp.strokeArc (Style.solid (Color.rgba 255 255 255 (1 / 2))) 2
        centerX centerY radius 0 (piV * 2)]

/-- Inner point loop of `MusicVisualizer.drawWave` (`script.js` lines
257-268): the polyline vertices of one layer, advancing `x` by
`sliceWidth` per bin. -/
def drawWavePoints (sinF : ℚ → ℚ) (height sliceWidth : ℚ) (layer : ℕ) :
    List ℚ → ℕ → ℚ → List (ℚ × ℚ)
  | [], _, _ => []
  | d :: rest, i, x =>
      let v := d / 255
      let y := height / 2 + v * height / 3 * sinF (((i : ℚ) + (layer : ℚ) * 30) * (1 / 10)) -
        (layer : ℚ) * 30
      (x, y) :: drawWavePoints sinF height sliceWidth layer rest (i + 1) (x + sliceWidth)

/-- `MusicVisualizer.drawWave` (`script.js` lines 240-272): fading black
rectangle, then exactly 3 stroked polyline layers whose hue drifts with
the clock (`now` stands for `Date.now()`). -/
def drawWave (spectrum : List ℚ) (width height now : ℚ) (sinF : ℚ → ℚ) : List DrawOp :=
  let sliceWidth := width / (spectrum.length : ℚ)
  DrawOp.fillRect (Style.solid (Color.rgba 0 0 0 (2 / 10))) 0 0 width height ::
    (List.range 3).map (fun (layer : ℕ) =>
      DrawOp.strokePath
        (Style.solid (Color.hsla (jsMod (now / 50 + (layer : ℚ) * 120) 360) 100 50 (6 / 10)))
        3 (drawWavePoints sinF height sliceWidth layer spectrum 0 0))

/-- One particle of `this.particles` (`script.js` lines 83-90). -/
structure Particle where
  x : ℚ
  y : ℚ
  radius : ℚ
  speedX : ℚ
  speedY : ℚ
  hue : ℚ
deriving DecidableEq

/-- `MusicVisualizer.initParticles` (`script.js` lines 80-92): re-seeds the
field with 100 particles; `rnd` injects the successive `Math.random()`
draws (six per particle), `width`/`height` the logical canvas size. -/
def initParticles (rnd : ℕ → ℚ) (width height : ℚ) : List Particle :=
  (List.range 100).map (fun i =>
    { x := rnd (6 * i) * width
      y := rnd (6 * i + 1) * height
      radius := rnd (6 * i + 2) * 3 + 1
      speedX := (rnd (6 * i + 3) - 1 / 2) * 2
      speedY := (rnd (6 * i + 4) - 1 / 2) * 2
      hue := rnd (6 * i + 5) * 360 })

/-- The per-particle position/velocity update of
`MusicVisualizer.drawParticles` (`script.js` lines 288-295): move by
`speed * scale`, flip the velocity sign on leaving `[0, width]` /
`[0, height]` (checked on the moved position, before clamping), then clamp
the position into bounds. -/
def updateParticle (scale width height : ℚ) (p : Particle) : Particle :=
  let x := p.x + p.speedX * scale
  let y := p.y + p.speedY * scale
  let sx := if x < 0 ∨ x > width then p.speedX * (-1) else p.speedX
  let sy := if y < 0 ∨ y > height then p.speedY * (-1) else p.speedY
  { x := max 0 (min width x)
    y := max 0 (min height y)
    radius := p.radius
    speedX := sx
    speedY := sy
    hue := p.hue }

/-- The inner proximity-linking loop of `MusicVisualizer.drawParticles`
(`script.js` lines 312-326): for each later particle `other`, stroke a
line from `(px, py)` (the current, already-updated particle) to `other`
when `sqrt(dx² + dy²) < 100 * intensity`. `sqrtF` injects `Math.sqrt`. -/
def proximityLinks (sqrtF : ℚ → ℚ) (px py hue intensity : ℚ)
    (others : List Particle) : List DrawOp :=
  others.filterMap (fun other =>
    let dx := other.x - px
    let dy := other.y - py
    let distance := sqrtF (dx * dx + dy * dy)
    if distance < 100 * intensity then
      some (DrawOp.strokeLine (Style.solid (Color.hsla hue 100 50 (intensity * (3 / 10)))) 1
        px py other.x other.y)
    else none)

/-- The `forEach` body of `MusicVisualizer.drawParticles` (`script.js`
lines 284-327) as a recursion over the particle list: each particle is
mapped to its spectrum bin, updated in place, drawn as a radial-gradient
disc and linked to the strictly later (not yet updated) particles. `M` is
the constant `this.particles.length`, `idx` the running ordinal index. -/
def drawParticlesLoop (sqrtF : ℚ → ℚ) (scale width height now piV : ℚ)
    (spectrum : List ℚ) (M : ℕ) : List Particle → ℕ → List DrawOp × List Particle
  | [], _ => ([], [])
  | p :: rest, idx =>
      let dataIndex := (ratFloor ((idx : ℚ) / (M : ℚ) * (spectrum.length : ℚ))).toNat
      let intensity := spectrum.getD dataIndex 0 / 255
      let p1 := updateParticle scale width height p
      let size := p1.radius * (1 + intensity * 2)
      let hue := jsMod (p1.hue + now / 50) 360
      let disc := DrawOp.fillArc
        (Style.radGrad p1.x p1.y 0 p1.x p1.y size
          [(0, Color.hsla hue 100 50 intensity), (1, Color.hsla hue 100 50 0)])
        p1.x p1.y size 0 (piV * 2)
      let links := proximityLinks sqrtF p1.x p1.y hue intensity rest
      let r := drawParticlesLoop sqrtF scale width height now piV spectrum M rest (idx + 1)
      (disc :: links ++ r.1, p1 :: r.2)

/-- A JS exception escaping a draw call. -/
inductive JsError where
  | typeError (msg : String)
deriving DecidableEq

/-- The energy factor of `MusicVisualizer.drawParticles` (`script.js`
lines 281-282): `average = spectrum.reduce((a, b) => a + b) / bufferLength`
and `scale = average / 128`, for a non-empty spectrum (for the empty
spectrum the `reduce` call throws instead; see `drawParticles`). -/
def spectrumScale (spectrum : List ℚ) : ℚ :=
  match spectrum with
  | [] => 0
  | d :: rest => rest.foldl (fun a b => a + b) d / ((d :: rest).length : ℚ) / 128

/-- `MusicVisualizer.drawParticles` (`script.js` lines 274-328): fading
black rectangle, energy factor from the spectrum mean, then the particle
loop. On a zero-length spectrum `reduce` with no initial value throws a
`TypeError` after the fade rectangle has been painted, and no particle is
touched. Result: painted ops, the mutated particle list, and the escaping
error if any. -/
def drawParticles (spectrum : List ℚ) (width height : ℚ)
    (particles : List Particle) (now piV : ℚ) (sqrtF : ℚ → ℚ) :
    List DrawOp × List Particle × Option JsError :=
  let fade := DrawOp.fillRect (Style.solid (Color.rgba 0 0 0 (1 / 10))) 0 0 width height
  match spectrum with
  | [] => ([fade], particles,
      some (JsError.typeError "Reduce of empty array with no initial value"))
  | d :: rest =>
      let scale := spectrumScale (d :: rest)
      let r := drawParticlesLoop sqrtF scale width height now piV (d :: rest)
        particles.length particles 0
      (fade :: r.1, r.2, none)

/-- The mutable state of a `MusicVisualizer` instance that the engine
methods touch: playback flag, active mode string, particle field, the
animation-frame bookkeeping, the audio element's pause flag and position,
and the surface contents (the list of ops currently painted; `[]` is the
fully transparent cleared state). -/
structure VisualizerState where
  isPlaying : Bool
  mode : String
  particles : List Particle
  animationId : Option ℕ
  framePending : Bool
  audioPaused : Bool
  audioCurrentTime : ℚ
  surface : List DrawOp
deriving DecidableEq

/-- `MusicVisualizer.changeMode` (`script.js` lines 124-126): stores the
incoming selector value in `this.mode`, nothing else. -/
def changeMode (value : String) (s : VisualizerState) : VisualizerState :=
  { s with mode := value }

/-- `MusicVisualizer.clearCanvas` (`script.js` lines 148-152): clears the
whole logical surface to the fully transparent state. -/
def clearCanvas (s : VisualizerState) : VisualizerState :=
  { s with surface := [] }

/-- `MusicVisualizer.stop` (`script.js` lines 108-116): pauses the audio,
rewinds it, clears `isPlaying`, cancels the pending animation frame when
`animationId` is set (the id itself is not erased), and clears the
canvas. -/
def stop (s : VisualizerState) : VisualizerState :=
  let s1 := { s with audioPaused := true, audioCurrentTime := 0, isPlaying := false }
  let s2 := if s1.animationId.isSome then { s1 with framePending := false } else s1
  clearCanvas s2

/-- The four mode strings the `visualize` dispatch recognizes. -/
def validModes : List String := ["bars", "circle", "wave", "particles"]

/-- `MusicVisualizer.visualize` (`script.js` lines 154-174): returns when
not playing; otherwise requests the next frame FIRST (`fid` is the id the
host assigns), samples the spectrum (passed in), and dispatches on
`this.mode` — an unrecognized mode falls through the `switch` and draws
nothing. Result: new state, the ops painted by this tick, and the error
escaping the tick if any. -/
def visualize (fid : ℕ) (width height now piV : ℚ) (sqrtF cosF sinF : ℚ → ℚ)
    (spectrum : List ℚ) (s : VisualizerState) :
    VisualizerState × List DrawOp × Option JsError :=
  if s.isPlaying = false then (s, [], none)
  else
    let s1 := { s with animationId := some fid, framePending := true }
    if s1.mode = "bars" then
      let ops := drawBars spectrum width height
      ({ s1 with surface := s1.surface ++ ops }, ops, none)
    else if s1.mode = "circle" then
      let ops := drawCircle spectrum width height piV cosF sinF
      ({ s1 with surface := s1.surface ++ ops }, ops, none)
    else if s1.mode = "wave" then
      let ops := drawWave spectrum width height now sinF
      ({ s1 with surface := s1.surface ++ ops }, ops, none)
    else if s1.mode = "particles" then
      let r := drawParticles spectrum width height s1.particles now piV sqrtF
      ({ s1 with particles := r.2.1, surface := s1.surface ++ r.1 }, r.1, r.2.2)
    else (s1, [], none)

/-- A concrete engine state used to instantiate theorems. -/
def sampleState : VisualizerState :=
  { isPlaying := false, mode := "bars", particles := [], animationId := none,
    framePending := false, audioPaused := false, audioCurrentTime := 0, surface := [] }

/-- A concrete playing engine state in particles mode. -/
def particlesState : VisualizerState :=
  { isPlaying := true, mode := "particles",
    particles := [{ x := 3, y := 5, radius := 2, speedX := 1, speedY := -1, hue := 0 }],
    animationId := none, framePending := false, audioPaused := false,
    audioCurrentTime := 0, surface := [] }

/-! ## Helper lemmas -/

/-- The bar-fill rectangles of the `drawBars` loop sit at the offsets
`x, x + (barWidth + 1), x + 2 * (barWidth + 1), ...`. -/
theorem drawBarsLoop_barXs (N : ℕ) (height barWidth : ℚ) :
    ∀ (l : List ℚ) (i : ℕ) (x : ℚ),
      ((drawBarsLoop N height barWidth l i x).filter isBarFill).map opX =
        (List.range l.length).map (fun k : ℕ => x + (k : ℚ) * (barWidth + 1))
  | [], _, _ => by simp [drawBarsLoop]
  | d :: rest, i, x => by
      rw [List.length_cons, List.range_succ_eq_map, List.map_cons, List.map_map]
      have h2 : ((fun k : ℕ => x + (k : ℚ) * (barWidth + 1)) ∘ Nat.succ) =
          (fun k : ℕ => (x + (barWidth + 1)) + (k : ℚ) * (barWidth + 1)) := by
        funext k
        simp only [Function.comp]
        push_cast
        ring
      rw [h2]
      simp only [drawBarsLoop]
      rw [List.filter_cons_of_pos rfl, List.filter_cons_of_neg (by simp [isBarFill])]
      rw [List.map_cons,
        drawBarsLoop_barXs N height barWidth rest (i + 1) (x + (barWidth + 1))]
      simp [opX]

/-- The cap-strip rectangles of the `drawBars` loop have their bottom edge
(`y + h`) at `height - barHeight - 5`, one per bin. -/
theorem drawBarsLoop_capBottoms (N : ℕ) (height barWidth : ℚ) :
    ∀ (l : List ℚ) (i : ℕ) (x : ℚ),
      ((drawBarsLoop N height barWidth l i x).filter isCapFill).map
          (fun op => opY op + opH op) =
        l.map (fun d => height - d / 255 * height * (8 / 10) - 5)
  | [], _, _ => by simp [drawBarsLoop]
  | d :: rest, i, x => by
      simp only [drawBarsLoop]
      rw [List.filter_cons_of_neg (by simp [isCapFill]), List.filter_cons_of_pos rfl]
      rw [List.map_cons, List.map_cons,
        drawBarsLoop_capBottoms N height barWidth rest (i + 1) (x + (barWidth + 1))]
      simp only [opY, opH, List.cons.injEq, and_true]
      ring

/-- An arithmetic progression read off `List.range` is a chain under
"successor adds `d`". -/
theorem chain'_arithProg (d : ℚ) :
    ∀ (N : ℕ) (x : ℚ),
      List.Chain' (fun a b => b = a + d) ((List.range N).map (fun k : ℕ => x + (k : ℚ) * d))
  | 0, _ => by simp
  | N + 1, x => by
      rw [List.range_succ_eq_map, List.map_cons, List.map_map]
      have h2 : ((fun k : ℕ => x + (k : ℚ) * d) ∘ Nat.succ) =
          (fun k : ℕ => (x + d) + (k : ℚ) * d) := by
        funext k
        simp only [Function.comp]
        push_cast
        ring
      rw [h2]
      refine List.chain'_cons'.2 ⟨?_, chain'_arithProg d N (x + d)⟩
      intro b hb
      cases N with
      | zero => simp at hb
      | succ m =>
          rw [List.range_succ_eq_map, List.map_cons] at hb
          simp only [List.head?_cons, Option.mem_def, Option.some.injEq] at hb
          subst hb
          push_cast
          ring

/-- An arithmetic progression with positive step is strictly increasing. -/
theorem pairwise_lt_arithProg (x d : ℚ) (hd : 0 < d) (N : ℕ) :
    List.Pairwise (fun a b => a < b) ((List.range N).map (fun k : ℕ => x + (k : ℚ) * d)) := by
  refine List.Pairwise.map _ ?_ (List.pairwise_lt_range N)
  intro a b hab
  have hc : (a : ℚ) < (b : ℚ) := by exact_mod_cast hab
  have := mul_lt_mul_of_pos_right hc hd
  linarith

/-! ## Claims -/

/-- C8: changing the active mode mutates only the mode selector — the
particle field (hence every particle's position, radius, velocity and hue)
and all other engine state are exactly what they were before the switch. -/
theorem changeMode_preserves_particles (v : String) (s : VisualizerState) :
    (changeMode v s).particles = s.particles ∧ (changeMode v s).mode = v ∧
    (changeMode v s).isPlaying = s.isPlaying ∧
    (changeMode v s).animationId = s.animationId ∧
    (changeMode v s).framePending = s.framePending ∧
    (changeMode v s).audioPaused = s.audioPaused ∧
    (changeMode v s).audioCurrentTime = s.audioCurrentTime ∧
    (changeMode v s).surface = s.surface :=
  ⟨rfl, rfl, rfl, rfl, rfl, rfl, rfl, rfl⟩

/-- C9: `stop` is idempotent — a second call (from any state, including a
non-running one) changes nothing further, and after the calls the surface
is in the cleared, fully transparent state. -/
theorem stop_idempotent_and_cleared (s : VisualizerState) :
    stop (stop s) = stop s ∧ (stop (stop s)).surface = [] := by
  cases h : s.animationId <;> simp [stop, clearCanvas, h]

/-- C5: for every valid N-length spectrum, `drawBars` emits exactly N
bar-fill rectangles and exactly N cap-strip rectangles; the per-bin bar
offsets are `k * (barWidth + 1)` with `barWidth = (width / N) * 2.5`, so
successive offsets differ by exactly `barWidth + 1` and (for a nonnegative
width) are strictly increasing. -/
theorem drawBars_op_counts_and_spacing (spectrum : List ℚ) (width height : ℚ)
    (hw : 0 ≤ width) :
    ((drawBars spectrum width height).filter isBarFill).length = spectrum.length ∧
    ((drawBars spectrum width height).filter isCapFill).length = spectrum.length ∧
    ((drawBars spectrum width height).filter isBarFill).map opX =
      (List.range spectrum.length).map
        (fun k : ℕ => (k : ℚ) * (width / (spectrum.length : ℚ) * (5 / 2) + 1)) ∧
    List.Chain'
      (fun a b => b = a + (width / (spectrum.length : ℚ) * (5 / 2) + 1))
      (((drawBars spectrum width height).filter isBarFill).map opX) ∧
    List.Pairwise (fun a b => a < b)
      (((drawBars spectrum width height).filter isBarFill).map opX) := by
  have hbw : 0 ≤ width / (spectrum.length : ℚ) * (5 / 2) :=
    mul_nonneg (div_nonneg hw (Nat.cast_nonneg _)) (by norm_num)
  have hzero : (fun k : ℕ => (0 : ℚ) + (k : ℚ) * (width / (spectrum.length : ℚ) * (5 / 2) + 1)) =
      (fun k : ℕ => (k : ℚ) * (width / (spectrum.length : ℚ) * (5 / 2) + 1)) := by
    funext k
    ring
  have hbar : ((drawBars spectrum width height).filter isBarFill) =
      ((drawBarsLoop spectrum.length height (width / (spectrum.length : ℚ) * (5 / 2))
        spectrum 0 0).filter isBarFill) := by
    simp only [drawBars]
    rw [List.filter_cons_of_neg (by simp [isBarFill])]
  have hcap : ((drawBars spectrum width height).filter isCapFill) =
      ((drawBarsLoop spectrum.length height (width / (spectrum.length : ℚ) * (5 / 2))
        spectrum 0 0).filter isCapFill) := by
    simp only [drawBars]
    rw [List.filter_cons_of_neg (by simp [isCapFill])]
  have hx := drawBarsLoop_barXs spectrum.length height
    (width / (spectrum.length : ℚ) * (5 / 2)) spectrum 0 0
  rw [hzero] at hx
  have hxs : ((drawBars spectrum width height).filter isBarFill).map opX =
      (List.range spectrum.length).map
        (fun k : ℕ => (k : ℚ) * (width / (spectrum.length : ℚ) * (5 / 2) + 1)) := by
    rw [hbar, hx]
  refine ⟨?_, ?_, hxs, ?_, ?_⟩
  · have := congrArg List.length hxs
    simpa using this
  · have hc := drawBarsLoop_capBottoms spectrum.length height
      (width / (spectrum.length : ℚ) * (5 / 2)) spectrum 0 0
    rw [← hcap] at hc
    have := congrArg List.length hc
    simpa using this
  · rw [hxs]
    have := chain'_arithProg (width / (spectrum.length : ℚ) * (5 / 2) + 1)
      spectrum.length 0
    rw [hzero] at this
    exact this
  · rw [hxs]
    have := pairwise_lt_arithProg 0 (width / (spectrum.length : ℚ) * (5 / 2) + 1)
      (by linarith) spectrum.length
    rw [hzero] at this
    exact this

/-- Witness for C5 at the concrete spectrum `[0, 255]`, width 10,
height 100. -/
theorem drawBars_op_counts_and_spacing_witness :
    ((drawBars [0, 255] 10 100).filter isBarFill).length = 2 ∧
    ((drawBars [0, 255] 10 100).filter isCapFill).length = 2 := by
  have h := drawBars_op_counts_and_spacing [0, 255] 10 100 (by norm_num)
  exact ⟨h.1, h.2.1⟩

/-- Counterexample for C4: in `drawBars [255] 10 100` the single cap
strip's bottom edge (`y + h = 15`) does not coincide with the bar's top
edge (`height - barHeight = 20`); the strip sits 5 units higher. -/
theorem cap_strip_gap_counterexample :
    ¬ (((drawBars [255] 10 100).filter isCapFill).map (fun op => opY op + opH op) =
        [100 - 255 / 255 * 100 * (8 / 10)]) := by
  simp [drawBars, drawBarsLoop, isCapFill, opY, opH, List.filter]
  norm_num

/-- C4 (amended): the 5-unit cap strip is drawn at
`y = height - barHeight - 10`, so its bottom edge `y + 5` lies at
`height - barHeight - 5`: five units ABOVE the bar's top edge, not
adjacent to it. -/
theorem cap_strip_five_above (spectrum : List ℚ) (width height : ℚ) :
    ((drawBars spectrum width height).filter isCapFill).map (fun op => opY op + opH op) =
      spectrum.map (fun d => height - d / 255 * height * (8 / 10) - 5) := by
  simp only [drawBars]
  rw [List.filter_cons_of_neg (by simp [isCapFill])]
  exact drawBarsLoop_capBottoms spectrum.length height
    (width / (spectrum.length : ℚ) * (5 / 2)) spectrum 0 0

/-- Counterexample for C1: `changeMode` applied to a value outside the
four enumerated modes stores it in `this.mode` instead of rejecting it —
no configuration error exists in the code path. -/
theorem changeMode_invalid_stored_counterexample :
    "plasma" ∉ validModes ∧ (changeMode "plasma" sampleState).mode = "plasma" :=
  ⟨by decide, rfl⟩

/-- C1 (amended): `changeMode` performs no validation — any value,
including one outside the four enumerated modes, is silently stored, and
on the next tick the `visualize` dispatch falls through its `switch`,
drawing nothing and raising no error. -/
theorem changeMode_stores_unvalidated (v : String) (s : VisualizerState)
    (hv : v ∉ validModes) (hp : s.isPlaying = true) (fid : ℕ)
    (width height now piV : ℚ) (sqrtF cosF sinF : ℚ → ℚ) (spectrum : List ℚ) :
    (changeMode v s).mode = v ∧
    (visualize fid width height now piV sqrtF cosF sinF spectrum (changeMode v s)).2.1 = [] ∧
    (visualize fid width height now piV sqrtF cosF sinF spectrum (changeMode v s)).2.2 = none := by
  simp only [validModes, List.mem_cons, List.mem_singleton] at hv
  push_neg at hv
  obtain ⟨h1, h2, h3, h4⟩ := hv
  refine ⟨rfl, ?_, ?_⟩ <;>
    simp [visualize, changeMode, hp, h1, h2, h3, h4]

/-- Witness for C1 (amended) at the concrete invalid mode "plasma". -/
theorem changeMode_stores_unvalidated_witness :
    (changeMode "plasma" { sampleState with isPlaying := true }).mode = "plasma" ∧
    (visualize 1 10 20 0 3 (fun q => q) (fun q => q) (fun q => q) []
      (changeMode "plasma" { sampleState with isPlaying := true })).2.1 = [] ∧
    (visualize 1 10 20 0 3 (fun q => q) (fun q => q) (fun q => q) []
      (changeMode "plasma" { sampleState with isPlaying := true })).2.2 = none :=
  changeMode_stores_unvalidated "plasma" { sampleState with isPlaying := true }
    (by decide) rfl 1 10 20 0 3 (fun q => q) (fun q => q) (fun q => q) []

/-- Counterexample for C2: for the all-zero spectrum `[0]` the energy
factor is 0, so a particle at `x = width` with `speedX = +1` does not
move, the strict `x > width` test fails, and `speedX` stays `+1` instead
of flipping to `-1`. -/
theorem boundary_reflection_zero_spectrum_counterexample :
    (updateParticle (spectrumScale [0]) 10 20
        { x := 10, y := 5, radius := 2, speedX := 1, speedY := 0, hue := 0 }).speedX = 1 ∧
    (1 : ℚ) ≠ -1 := by
  constructor
  · simp [updateParticle, spectrumScale]
  · norm_num

/-- C2 (amended): for every spectrum whose energy factor
`scale = mean / 128` is positive (in particular any spectrum with a
nonzero bin) and any surface with `0 ≤ width`, a particle at `x = width`
with `speedX = +1` has, after one particle update of the Particles mode,
`speedX = -1` (the sign flip fires before clamping) and clamped
`x = width`. -/
theorem boundary_reflection_positive_scale (spectrum : List ℚ) (width height : ℚ)
    (p : Particle) (hw : 0 ≤ width) (hs : 0 < spectrumScale spectrum)
    (hx : p.x = width) (hv : p.speedX = 1) :
    (updateParticle (spectrumScale spectrum) width height p).speedX = -1 ∧
    (updateParticle (spectrumScale spectrum) width height p).x = width := by
  simp only [updateParticle, hx, hv, one_mul]
  rw [if_pos (Or.inr (by linarith))]
  constructor
  · norm_num
  · rw [min_eq_left (by linarith), max_eq_right hw]

/-- Witness for C2 (amended) at the concrete spectrum `[128]`
(`scale = 1`), width 10, height 20. -/
theorem boundary_reflection_positive_scale_witness :
    (updateParticle (spectrumScale [128]) 10 20
        { x := 10, y := 5, radius := 2, speedX := 1, speedY := 0, hue := 0 }).speedX = -1 ∧
    (updateParticle (spectrumScale [128]) 10 20
        { x := 10, y := 5, radius := 2, speedX := 1, speedY := 0, hue := 0 }).x = 10 :=
  boundary_reflection_positive_scale [128] 10 20
    { x := 10, y := 5, radius := 2, speedX := 1, speedY := 0, hue := 0 }
    (by norm_num) (by norm_num [spectrumScale]) rfl rfl

/-- The particle list returned by the `drawParticles` loop is exactly the
input list with `updateParticle` applied to each element (link drawing
never mutates). -/
theorem drawParticlesLoop_particles (sqrtF : ℚ → ℚ) (scale width height now piV : ℚ)
    (spectrum : List ℚ) (M : ℕ) :
    ∀ (ps : List Particle) (idx : ℕ),
      (drawParticlesLoop sqrtF scale width height now piV spectrum M ps idx).2 =
        ps.map (updateParticle scale width height)
  | [], _ => rfl
  | p :: rest, idx => by
      simp only [drawParticlesLoop, List.map_cons]
      rw [drawParticlesLoop_particles sqrtF scale width height now piV spectrum M rest (idx + 1)]

/-- One `updateParticle` call leaves the position clamped inside the
surface bounds. -/
theorem updateParticle_bounds (scale width height : ℚ) (p : Particle)
    (hw : 0 ≤ width) (hh : 0 ≤ height) :
    0 ≤ (updateParticle scale width height p).x ∧
      (updateParticle scale width height p).x ≤ width ∧
      0 ≤ (updateParticle scale width height p).y ∧
      (updateParticle scale width height p).y ≤ height := by
  simp only [updateParticle]
  exact ⟨le_max_left _ _, max_le hw (min_le_left _ _),
    le_max_left _ _, max_le hh (min_le_left _ _)⟩

/-- C6: after every particle update performed by the Particles mode (any
non-empty spectrum, surface with nonnegative dimensions), every particle
of the resulting field lies within `[0, width] × [0, height]`. -/
theorem particles_clamped_in_bounds (spectrum : List ℚ) (width height now piV : ℚ)
    (particles : List Particle) (sqrtF : ℚ → ℚ) (hw : 0 ≤ width) (hh : 0 ≤ height)
    (hs : spectrum ≠ []) :
    ∀ q ∈ (drawParticles spectrum width height particles now piV sqrtF).2.1,
      0 ≤ q.x ∧ q.x ≤ width ∧ 0 ≤ q.y ∧ q.y ≤ height := by
  match spectrum, hs with
  | d :: rest, _ =>
    intro q hq
    simp only [drawParticles] at hq
    rw [drawParticlesLoop_particles] at hq
    obtain ⟨p, _, rfl⟩ := List.mem_map.1 hq
    exact updateParticle_bounds _ width height p hw hh

/-- Witness for C6 at the concrete spectrum `[0]`, one particle, surface
10 × 20. -/
theorem particles_clamped_in_bounds_witness :
    0 ≤ (updateParticle (spectrumScale [0]) 10 20
        { x := 3, y := 5, radius := 2, speedX := 1, speedY := -1, hue := 0 }).x ∧
      (updateParticle (spectrumScale [0]) 10 20
        { x := 3, y := 5, radius := 2, speedX := 1, speedY := -1, hue := 0 }).x ≤ 10 ∧
      0 ≤ (updateParticle (spectrumScale [0]) 10 20
        { x := 3, y := 5, radius := 2, speedX := 1, speedY := -1, hue := 0 }).y ∧
      (updateParticle (spectrumScale [0]) 10 20
        { x := 3, y := 5, radius := 2, speedX := 1, speedY := -1, hue := 0 }).y ≤ 20 := by
  refine particles_clamped_in_bounds [0] 10 20 0 3
    [{ x := 3, y := 5, radius := 2, speedX := 1, speedY := -1, hue := 0 }]
    (fun q => q) (by norm_num) (by norm_num) (by simp) _ ?_
  simp [drawParticles, drawParticlesLoop]

/-- C10: in the Particles mode, a particle whose mapped spectrum bin value
is 0 (hence `intensity = 0`) draws no proximity-linking line to any
later particle of the tick: the link test `distance < 100 * intensity` is
strict and `Math.sqrt` returns a nonnegative distance. -/
theorem zero_intensity_no_links (sqrtF : ℚ → ℚ) (px py hue : ℚ) (spectrum : List ℚ)
    (dataIndex : ℕ) (others : List Particle) (hz : spectrum.getD dataIndex 0 = 0)
    (hs : ∀ q, 0 ≤ q → 0 ≤ sqrtF q) :
    proximityLinks sqrtF px py hue (spectrum.getD dataIndex 0 / 255) others = [] := by
  rw [hz]
  unfold proximityLinks
  rw [List.filterMap_eq_nil_iff]
  intro other _
  simp only
  rw [if_neg]
  have h1 : (0 : ℚ) ≤ (other.x - px) * (other.x - px) + (other.y - py) * (other.y - py) :=
    add_nonneg (mul_self_nonneg _) (mul_self_nonneg _)
  have h2 := hs _ h1
  intro hlt
  rw [zero_div, mul_zero] at hlt
  exact absurd hlt (not_lt.2 h2)

/-- Witness for C10 at a concrete particle pair with bin value 0. -/
theorem zero_intensity_no_links_witness :
    proximityLinks (fun q => q) 0 0 0 (List.getD [0] 0 0 / 255)
      [{ x := 1, y := 1, radius := 1, speedX := 1, speedY := 1, hue := 1 }] = [] :=
  zero_intensity_no_links (fun q => q) 0 0 0 [(0 : ℚ)] 0
    [{ x := 1, y := 1, radius := 1, speedX := 1, speedY := 1, hue := 1 }]
    rfl (fun _ hq => hq)

/-- All radial segments produced by the `drawCircle` loop over an all-zero
spectrum are degenerate and lie on the base circle, provided the injected
trig satisfies the Pythagorean identity. -/
theorem drawCircleLoop_on_base (cosF sinF : ℚ → ℚ) (piV : ℚ) (N : ℕ)
    (cX cY r : ℚ) (htrig : ∀ θ, cosF θ * cosF θ + sinF θ * sinF θ = 1) :
    ∀ (l : List ℚ) (i : ℕ), (∀ d ∈ l, d = 0) →
      ∀ op ∈ drawCircleLoop cosF sinF piV N cX cY r l i,
        ∀ st lw x1 y1 x2 y2, op = DrawOp.strokeLine st lw x1 y1 x2 y2 →
          x2 = x1 ∧ y2 = y1 ∧ (x1 - cX) * (x1 - cX) + (y1 - cY) * (y1 - cY) = r * r
  | [], _, _ => by simp [drawCircleLoop]
  | d :: rest, i, hz => by
      have hd : d = 0 := hz d (List.mem_cons_self d rest)
      intro op hop st lw x1 y1 x2 y2 heq
      rw [drawCircleLoop] at hop
      rcases List.mem_cons.1 hop with hhead | htail
      · subst hhead
        simp only [DrawOp.strokeLine.injEq] at heq
        obtain ⟨-, -, hx1, hy1, hx2, hy2⟩ := heq
        subst hx1
        subst hy1
        subst hx2
        subst hy2
        subst hd
        refine ⟨by norm_num, by norm_num, ?_⟩
        have h := htrig ((i : ℚ) / (N : ℚ) * piV * 2)
        linear_combination (r * r) * h
      · exact drawCircleLoop_on_base cosF sinF piV N cX cY r htrig rest (i + 1)
          (fun e he => hz e (List.mem_cons_of_mem d he)) op htail st lw x1 y1 x2 y2 heq

/-- C7: for a spectrum in which every bin is 0, every spectrum-derived
line segment drawn by the Radial mode has `barHeight = 0`: both endpoints
coincide and lie exactly at distance `baseRadius = min(width, height) / 4`
from the surface center (squared-distance form, exact over ℚ), assuming
the host trig satisfies `cos² + sin² = 1`. -/
theorem radial_zero_spectrum_on_base_circle (spectrum : List ℚ)
    (width height piV : ℚ) (cosF sinF : ℚ → ℚ) (hz : ∀ d ∈ spectrum, d = 0)
    (htrig : ∀ θ, cosF θ * cosF θ + sinF θ * sinF θ = 1) :
    ∀ op ∈ drawCircle spectrum width height piV cosF sinF,
      ∀ st lw x1 y1 x2 y2, op = DrawOp.strokeLine st lw x1 y1 x2 y2 →
        x2 = x1 ∧ y2 = y1 ∧
        (x1 - width / 2) * (x1 - width / 2) + (y1 - height / 2) * (y1 - height / 2) =
          (min width height / 4) * (min width height / 4) := by
  intro op hop st lw x1 y1 x2 y2 heq
  simp only [drawCircle] at hop
  rcases List.mem_cons.1 hop with hfade | hop2
  · subst hfade
    simp at heq
  · rcases List.mem_append.1 hop2 with hloop | harc
    · exact drawCircleLoop_on_base cosF sinF piV spectrum.length (width / 2) (height / 2)
        (min width height / 4) htrig spectrum 0 hz op hloop st lw x1 y1 x2 y2 heq
    · rw [List.mem_singleton] at harc
      subst harc
      simp at heq

/-- Witness for C7: the single segment drawn for the spectrum `[0]` on a
4 × 4 surface, with `cosF = const 1`, `sinF = const 0`, sits at the base
radius 1 around the center (2, 2). -/
theorem radial_zero_spectrum_witness :
    (3 : ℚ) = 3 ∧ (2 : ℚ) = 2 ∧
    ((3 : ℚ) - 4 / 2) * ((3 : ℚ) - 4 / 2) + ((2 : ℚ) - 4 / 2) * ((2 : ℚ) - 4 / 2) =
      (min (4 : ℚ) 4 / 4) * (min (4 : ℚ) 4 / 4) := by
  refine radial_zero_spectrum_on_base_circle [0] 4 4 3 (fun _ => 1) (fun _ => 0)
    (by simp) (fun θ => by norm_num)
    (DrawOp.strokeLine (Style.solid (Color.hsla ((0 : ℚ) / (1 : ℚ) * 360) 100 50 (8 / 10))) 2
      ((4 : ℚ) / 2 + 1 * (min (4 : ℚ) 4 / 4)) ((4 : ℚ) / 2 + 0 * (min (4 : ℚ) 4 / 4))
      ((4 : ℚ) / 2 + 1 * (min (4 : ℚ) 4 / 4 + (0 : ℚ) / 255 * 100))
      ((4 : ℚ) / 2 + 0 * (min (4 : ℚ) 4 / 4 + (0 : ℚ) / 255 * 100)))
    ?_ _ _ _ _ _ _ rfl |>.imp ?_ (fun h => h.imp ?_ ?_)
  · simp [drawCircle, drawCircleLoop]
  · intro h
    norm_num
  · intro h
    norm_num
  · intro h
    rw [show ((4 : ℚ) / 2 + 1 * (min (4 : ℚ) 4 / 4)) = 3 by norm_num,
      show ((4 : ℚ) / 2 + 0 * (min (4 : ℚ) 4 / 4)) = 2 by norm_num] at h
    exact h

/-- Counterexample for C3: in Particles mode a zero-length spectrum is not
skipped silently — the tick raises (`reduce` of an empty array with no
initial value throws a `TypeError` out of the draw call). -/
theorem empty_spectrum_raises_counterexample :
    (visualize 1 10 20 0 3 (fun q => q) (fun q => q) (fun q => q) []
      particlesState).2.2 ≠ none := by
  simp [visualize, particlesState, drawParticles]

/-- C3 (amended): a zero-length spectrum is not validated. In Particles
mode the draw call raises a `TypeError` that escapes the tick; the
animation loop nevertheless continues, because the next frame is
requested before the mode dispatch, and the particle field is untouched. -/
theorem empty_spectrum_loop_continues (s : VisualizerState) (fid : ℕ)
    (width height now piV : ℚ) (sqrtF cosF sinF : ℚ → ℚ)
    (hp : s.isPlaying = true) (hm : s.mode = "particles") :
    (visualize fid width height now piV sqrtF cosF sinF [] s).2.2 =
      some (JsError.typeError "Reduce of empty array with no initial value") ∧
    (visualize fid width height now piV sqrtF cosF sinF [] s).1.framePending = true ∧
    (visualize fid width height now piV sqrtF cosF sinF [] s).1.animationId = some fid ∧
    (visualize fid width height now piV sqrtF cosF sinF [] s).1.particles = s.particles := by
  refine ⟨?_, ?_, ?_, ?_⟩ <;> simp [visualize, hp, hm, drawParticles]

/-- Witness for C3 (amended) at a concrete playing particles-mode state. -/
theorem empty_spectrum_loop_continues_witness :
    (visualize 1 10 20 0 3 (fun q => q) (fun q => q) (fun q => q) []
        particlesState).2.2 =
      some (JsError.typeError "Reduce of empty array with no initial value") ∧
    (visualize 1 10 20 0 3 (fun q => q) (fun q => q) (fun q => q) []
        particlesState).1.framePending = true ∧
    (visualize 1 10 20 0 3 (fun q => q) (fun q => q) (fun q => q) []
        particlesState).1.animationId = some 1 ∧
    (visualize 1 10 20 0 3 (fun q => q) (fun q => q) (fun q => q) []
        particlesState).1.particles = particlesState.particles :=
  empty_spectrum_loop_continues particlesState 1 10 20 0 3
    (fun q => q) (fun q => q) (fun q => q) rfl rfl

end MusicVisualizer
